import Mathlib

/-!
# Verification of the payrex-rust derive/attribute code-generation layer

Shallow embedding of the two compile-time synthesizers of the repository:

* the Field Synthesizer (`payrex_attr` in `src/payrex_derive/src/lib.rs`
  together with `ParsedPayrexAttrs` in `src/payrex_derive/src/fields.rs`),
  which appends canonical fields to an annotated struct and optionally emits
  a fully-optional mirror struct; and
* the Builder Method Synthesizer (`derive_handler` in
  `src/payrex_derive/src/derive.rs`), which partitions the expanded field
  list into constructor parameters and setter-routed fields and generates a
  `new` constructor plus fluent setters.

Rust `syn` types are embedded just deeply enough for the predicates the
source evaluates (`is_type`, `is_type_deep`, `get_option_inner`,
`is_option`): a path type records whether its `qself` is absent, the
identifier of its last segment, and the shape of that segment's arguments.
Panics (`Option::unwrap`) are embedded as `Option.none` results, compile
errors as `Except.error`.
-/

namespace Payrex

/-- Embedding of the slice of `syn::Type` the generator inspects.  The source
only ever reads: whether the type is a path, whether `qself` is absent, the
last segment's identifier, and — in `get_option_inner` — whether the last
segment's arguments are angle-bracketed of length exactly one with that one
argument a type.  Constructors record exactly these observations:

* `nonPath` — any non-path type (reference, tuple, slice, …);
* `pathNoArgs q i` — path type, last segment `i` with no arguments;
* `pathParen q i` — last segment with parenthesized arguments (`Fn(..)`);
* `pathAngleOneTy q i t` — last segment `i<t>`: angle-bracketed, exactly
  one argument, which is a type;
* `pathAngleOneOther q i` — angle-bracketed, exactly one argument, which is
  not a type (a lifetime or const argument);
* `pathAngleMany q i n` — angle-bracketed with `n ≠ 1` arguments, whose
  contents no source function ever inspects. -/
inductive Ty where
  | nonPath
  | pathNoArgs (qselfNone : Bool) (ident : String)
  | pathParen (qselfNone : Bool) (ident : String)
  | pathAngleOneTy (qselfNone : Bool) (ident : String) (t : Ty)
  | pathAngleOneOther (qselfNone : Bool) (ident : String)
  | pathAngleMany (qselfNone : Bool) (ident : String) (n : Nat)
  deriving DecidableEq, Repr

/-- The identifier of the last path segment, when the type is a path
(`p.path.segments.last()` in the source). -/
def Ty.lastIdent? : Ty → Option String
  | .nonPath => none
  | .pathNoArgs _ i => some i
  | .pathParen _ i => some i
  | .pathAngleOneTy _ i _ => some i
  | .pathAngleOneOther _ i => some i
  | .pathAngleMany _ i _ => some i

/-- Whether the path type's `qself` is absent; `false` for non-path types. -/
def Ty.qselfIsNone : Ty → Bool
  | .nonPath => false
  | .pathNoArgs q _ => q
  | .pathParen q _ => q
  | .pathAngleOneTy q _ _ => q
  | .pathAngleOneOther q _ => q
  | .pathAngleMany q _ _ => q

/-- A plain path type with no generic arguments, e.g. `String`, `Currency`. -/
def tyName (s : String) : Ty := .pathNoArgs true s

/-- `Option<t>` as a path type. -/
def tyOption (t : Ty) : Ty := .pathAngleOneTy true "Option" t

/-- `src/payrex_derive/src/utils.rs`, `is_type`: the type is a path whose
last segment identifier equals `name` (the `qself` is not examined). -/
def is_type (ty : Ty) (name : String) : Bool :=
  match ty.lastIdent? with
  | some i => i = name
  | none => false

/-- `src/payrex_derive/src/utils.rs`, `is_type_deep`: as `is_type`, but the
path must additionally have no `qself`. -/
def is_type_deep (ty : Ty) (name : String) : Bool :=
  ty.qselfIsNone &&
    match ty.lastIdent? with
    | some i => i = name
    | none => false

/-- `src/payrex_derive/src/utils.rs`, `get_option_inner`: the inner type of
an `Option<T>` path type.  Requires no `qself`, last segment identifier
`Option`, angle-bracketed arguments of length exactly one, and that single
argument a type; otherwise `none`. -/
def get_option_inner : Ty → Option Ty
  | .pathAngleOneTy qselfNone ident t =>
    if qselfNone && ident = "Option" then some t else none
  | _ => none

/-- A named struct field as both synthesizers see it: identifier, type, the
text of its doc attributes, whether it carries a
`#[serde(skip_serializing_if = "Option::is_none")]` attribute, and the
`description` value of its `#[payrex(...)]` field attribute, if any. -/
structure Field where
  name : String
  ty : Ty
  doc : String
  serdeSkip : Bool
  payrexDescription : Option String
  deriving DecidableEq, Repr

/-! ## Field Synthesizer (`src/payrex_derive/src/fields.rs` driven by
`src/payrex_derive/src/lib.rs`) -/

/-- `PayrexAttrs` in `src/payrex_derive/src/fields.rs`: the switch set of a
`#[payrex_attr(...)]` annotation; `#[darling(default)]` makes every switch
default to false / absent. -/
structure PayrexAttrs where
  timestamp : Bool := false
  metadata : Bool := false
  amount : Bool := false
  livemode : Bool := false
  description : Option String := none
  currency : Bool := false
  optional : Bool := false
  deriving DecidableEq, Repr

/-- One item of the annotation's option list; the closed vocabulary
`darling` accepts for `PayrexAttrs`.  A boolean switch written as a bare
word (`timestamp`) carries `true`; the explicit form (`currency = false`)
carries its literal, as in `#[payrex_attr(metadata, currency = false)]`. -/
inductive SwitchItem where
  | timestamp (b : Bool)
  | metadata (b : Bool)
  | amount (b : Bool)
  | livemode (b : Bool)
  | description (key : String)
  | currency (b : Bool)
  | optional (b : Bool)
  deriving DecidableEq, Repr

/-- The `PayrexAttrs` struct-field name a switch item sets. -/
def SwitchItem.name : SwitchItem → String
  | .timestamp _ => "timestamp"
  | .metadata _ => "metadata"
  | .amount _ => "amount"
  | .livemode _ => "livemode"
  | .description _ => "description"
  | .currency _ => "currency"
  | .optional _ => "optional"

/-- Setting one switch in the attrs record. -/
def applySwitch (a : PayrexAttrs) : SwitchItem → PayrexAttrs
  | .timestamp b => { a with timestamp := b }
  | .metadata b => { a with metadata := b }
  | .amount b => { a with amount := b }
  | .livemode b => { a with livemode := b }
  | .description key => { a with description := some key }
  | .currency b => { a with currency := b }
  | .optional b => { a with optional := b }

/-- `PayrexAttrs::from_list`: fold the annotation's option list over the
defaulted record (`darling` rejects duplicate and unknown keys upstream; the
theorems about this function therefore assume distinct keys). -/
def parseAttrs (items : List SwitchItem) : PayrexAttrs :=
  items.foldl applySwitch {}

/-- The `created_at` field pushed by `add_timestamp`. -/
def createdAtField : Field :=
  { name := "created_at", ty := tyName "Timestamp"
    doc := "The time the resource was created and measured in seconds since the Unix epoch."
    serdeSkip := false, payrexDescription := none }

/-- The `updated_at` field pushed by `add_timestamp`. -/
def updatedAtField : Field :=
  { name := "updated_at", ty := tyName "Timestamp"
    doc := "The time the resource was updated and measured in seconds since the Unix epoch."
    serdeSkip := false, payrexDescription := none }

/-- The `metadata` field pushed by `add_metadata`. -/
def metadataField : Field :=
  { name := "metadata", ty := tyOption (tyName "Metadata")
    doc := "A set of key-value pairs attached to the Payment. This is useful for storing additional\ninformation about the Payment."
    serdeSkip := true, payrexDescription := none }

/-- The `amount` field pushed by `add_amount`. -/
def amountField : Field :=
  { name := "amount", ty := tyName "u64"
    doc := "The amount of the payment to be transferred to your PayRex merchant account. This is a\npositive integer that your customer paid in the smallest currency unit, cents. If the\ncustomer paid ₱ 120.50, the amount of the Payment should be 12050.\n\nThe minimum amount is ₱ 20 (2000 in cents) and the maximum amount is ₱ 59,999,999.99\n(5999999999 in cents)."
    serdeSkip := false, payrexDescription := none }

/-- The `livemode` field pushed by `add_livemode`. -/
def livemodeField : Field :=
  { name := "livemode", ty := tyName "bool"
    doc := "The value is `true` if the resource's mode is live or the value is `false` if the resource is\nin test mode."
    serdeSkip := false, payrexDescription := none }

/-- The `currency` field pushed by `add_currency`. -/
def currencyField : Field :=
  { name := "currency", ty := tyName "Currency"
    doc := "A three-letter ISO currency code in uppercase. As of the moment, we only support PHP."
    serdeSkip := false, payrexDescription := none }

/-- The doc template selected by `add_description`'s `match desc.as_str()`:
seven recognized keys, any other key yields the empty string. -/
def descTemplate (key : String) : String :=
  if key = "refund" then
    "An arbitrary string attached to the Refund."
  else if key = "payment" then
    "An arbitrary string attached to the Payment. Useful reference when viewing Payment from [PayRex Dashboard](https://dashboard.payrexhq.com)."
  else if key = "payment_intent" then
    "An arbitrary string attached to the Payment Intent. Useful reference when viewing paid payments from the [PayRex Dashboard](https://dashboard.payrexhq.com)."
  else if key = "webhook" then
    "An arbitrary string attached to the Webhook. You can use this to give more information about the Webhook resource."
  else if key = "checkout_session" then
    "An arbitrary string attached to the CheckoutSession. Useful reference when viewing paid Payment from PayRex Dashboard."
  else if key = "billing_statements" then
    "\nAn arbitrary string attached to the billing statement and copied over to its payment intent. This is a useful reference when viewing the payment resources associated with the billing statement from the PayRex Dashboard.\n\nIf the description is not modified, the default value is \"Payment for Billing Statement <billing statement number>\"\n                    "
  else if key = "billing_statement_line_items" then
    "The description attribute describes the line item of the billing statement. It could be a product you sell or a service you provide to your customers."
  else ""

/-- The seven `description` keys with a non-empty canned template. -/
def recognizedDescriptionKeys : List String :=
  ["refund", "payment", "payment_intent", "webhook", "checkout_session",
   "billing_statements", "billing_statement_line_items"]

/-- The `description` field pushed by `add_description` for a given key. -/
def descriptionField (key : String) : Field :=
  { name := "description", ty := tyOption (tyName "String")
    doc := descTemplate key
    serdeSkip := true, payrexDescription := none }

/-- `add_timestamp`: push `created_at` and `updated_at` when the
`timestamp` switch is set. -/
def add_timestamp (a : PayrexAttrs) (fs : List Field) : List Field :=
  if a.timestamp then fs ++ [createdAtField, updatedAtField] else fs

/-- `add_metadata`. -/
def add_metadata (a : PayrexAttrs) (fs : List Field) : List Field :=
  if a.metadata then fs ++ [metadataField] else fs

/-- `add_amount`. -/
def add_amount (a : PayrexAttrs) (fs : List Field) : List Field :=
  if a.amount then fs ++ [amountField] else fs

/-- `add_livemode`. -/
def add_livemode (a : PayrexAttrs) (fs : List Field) : List Field :=
  if a.livemode then fs ++ [livemodeField] else fs

/-- `add_description`: push the `description: Option<String>` field when the
`description` switch carries a key, documenting it from the template. -/
def add_description (a : PayrexAttrs) (fs : List Field) : List Field :=
  match a.description with
  | some key => fs ++ [descriptionField key]
  | none => fs

/-- `add_currency`. -/
def add_currency (a : PayrexAttrs) (fs : List Field) : List Field :=
  if a.currency then fs ++ [currencyField] else fs

/-- The field-expansion pipeline in the order `payrex_attr`
(`src/payrex_derive/src/lib.rs`) invokes it: `add_amount`, `add_metadata`,
`add_description`, `add_livemode`, `add_timestamp`, `add_currency`. -/
def expandFields (a : PayrexAttrs) (fs : List Field) : List Field :=
  add_currency a (add_timestamp a (add_livemode a (add_description a
    (add_metadata a (add_amount a fs)))))

/-- `ParsedPayrexAttrs::is_option` in `src/payrex_derive/src/fields.rs`:
the type is a path whose last segment identifier is `Option` (the `qself`
is not examined). -/
def is_option (ty : Ty) : Bool :=
  match ty.lastIdent? with
  | some i => i = "Option"
  | none => false

/-- One field of the optional mirror struct, as `gen_optional_fields` emits
it: doc attributes carried over, type wrapped in `Option` unless already
`Option`-headed, and a `skip_serializing_if` annotation always attached
(other original attributes are not carried over). -/
def mirrorField (f : Field) : Field :=
  { name := f.name
    ty := if is_option f.ty then f.ty else tyOption f.ty
    doc := f.doc
    serdeSkip := true
    payrexDescription := none }

/-- `gen_optional_fields`: the mirror struct's field list. -/
def gen_optional_fields (fs : List Field) : List Field :=
  fs.map mirrorField

/-- The structural shape of the annotated item: `payrex_attr` and
`derive_handler` both accept only a struct with named fields; `notNamed`
stands for every other shape (tuple struct, unit struct, enum, union). -/
inductive StructShape where
  | named (fields : List Field)
  | notNamed
  deriving DecidableEq, Repr

/-- The output of the attribute macro: the expanded field list and, when the
`optional` switch is set, the field list of the generated
`Optional<Name>` mirror struct. -/
structure Expanded where
  fields : List Field
  mirror : Option (List Field)
  deriving DecidableEq, Repr

/-- `payrex_attr` in `src/payrex_derive/src/lib.rs`: reject a shape without
named fields with a compile error; otherwise expand the field list and,
when `optional` is set, also emit the mirror struct built from the expanded
list (`add_optional_struct` runs after all field-appending steps). -/
def payrex_attr (a : PayrexAttrs) (shape : StructShape) : Except String Expanded :=
  match shape with
  | .named fs =>
    let expanded := expandFields a fs
    .ok { fields := expanded
          mirror := if a.optional then some (gen_optional_fields expanded) else none }
  | .notNamed => .error "#[payrex] only supports structs with named fields"

/-! ## Builder Method Synthesizer (`src/payrex_derive/src/derive.rs`) -/

/-- The static `MAP_DESCRIPTION` lookup table: canned setter documentation
for the four canonical field names, absent for every other name. -/
def MAP_DESCRIPTION (name : String) : Option String :=
  if name = "metadata" then some "Sets metadata in the query parameters."
  else if name = "description" then some "Sets the description in the query parameters."
  else if name = "currency" then some "Sets the currency in the query parameters."
  else if name = "amount" then some "Sets the amount in the query parameters."
  else none

/-- The receiver's description after the name-based overwrite in
`derive_handler`'s field loop: for a field named `metadata`, `description`,
`currency` or `amount` whose type is `Option`-headed, the author's
`#[payrex(description = ...)]` value is replaced by the `MAP_DESCRIPTION`
entry; otherwise the author's value stands. -/
def effectiveDescription (f : Field) : Option String :=
  if (f.name = "metadata" ∨ f.name = "description" ∨ f.name = "currency"
      ∨ f.name = "amount") ∧ is_type f.ty "Option" then
    MAP_DESCRIPTION f.name
  else
    f.payrexDescription

/-- How `derive_handler`'s loop disposes of one field: generate a setter,
collect it as a constructor (required) field, or drop it entirely (a
`ListParams` field without a description). -/
inductive Route where
  | setter
  | required
  | dropped
  deriving DecidableEq, Repr

/-- The classification implicit in `derive_handler`'s loop body. -/
def route (f : Field) : Route :=
  if (effectiveDescription f).isSome then .setter
  else if is_type f.ty "ListParams" then .dropped
  else .required

/-- The parameter type of a generated method: either the exact embedded
type, or the `impl Into<t>` relaxation used for string-typed values. -/
inductive ParamTy where
  | exactParam (t : Ty)
  | intoParam (t : Ty)
  deriving DecidableEq, Repr

/-- One generated fluent setter, as `gen_optional_function` emits it:
method name (= field name), doc text (the receiver's description), the
parameter type, and whether the body converts the argument
(`Some(x.into())`) or stores it as passed (`Some(x)`). -/
structure Setter where
  name : String
  doc : Option String
  param : ParamTy
  converts : Bool
  deriving DecidableEq, Repr

/-- `gen_optional_function`: unwrap the field's `Option` inner type — the
source calls `.unwrap()`, so failure of `get_option_inner` is a panic,
embedded as `none` — then emit the setter, with the `impl Into` relaxation
exactly when the inner type is a string type per `is_type_deep`. -/
def gen_optional_function (f : Field) (desc : Option String) : Option Setter :=
  match get_option_inner f.ty with
  | none => none
  | some inner =>
    if is_type_deep inner "String" then
      some { name := f.name, doc := desc, param := .intoParam inner, converts := true }
    else
      some { name := f.name, doc := desc, param := .exactParam inner, converts := false }

/-- One parameter of the generated constructor together with its assignment
form in the body (`name: name.into()` versus plain `name`). -/
structure CtorArg where
  name : String
  param : ParamTy
  converts : Bool
  deriving DecidableEq, Repr

/-- The constructor argument built from one required field: the `impl Into`
relaxation and `.into()` conversion exactly when the declared type is a
string type per `is_type`. -/
def mkCtorArg (f : Field) : CtorArg :=
  if is_type f.ty "String" then
    { name := f.name, param := .intoParam f.ty, converts := true }
  else
    { name := f.name, param := .exactParam f.ty, converts := false }

/-- The generated constructor: `zeroArg` is `pub fn new() -> Self {
Self::default() }`; `withArgs` is `pub fn new(args...) -> Self` filling the
listed fields positionally and every other field from
`..Default::default()`. -/
inductive Ctor where
  | zeroArg
  | withArgs (args : List CtorArg)
  deriving DecidableEq, Repr

/-- `gen_required_functions`: the empty required set yields the
zero-argument default constructor, otherwise one parameter per required
field in declaration order. -/
def gen_required_functions (fields : List Field) : Ctor :=
  if fields.isEmpty then .zeroArg
  else .withArgs (fields.map mkCtorArg)

/-- `derive_handler`'s field loop: walk the fields in declaration order,
overwrite the receiver description for canonical names, route each field to
setter generation (which can panic, hence `Option`), to the required list,
or drop it (`ListParams` without description). Returns the setter list and
the required-field list. -/
def processFields : List Field → Option (List Setter × List Field)
  | [] => some ([], [])
  | f :: fs =>
    match effectiveDescription f with
    | some d =>
      match gen_optional_function f (some d) with
      | none => none
      | some s =>
        match processFields fs with
        | none => none
        | some (ss, rs) => some (s :: ss, rs)
    | none =>
      match processFields fs with
      | none => none
      | some (ss, rs) =>
        if is_type f.ty "ListParams" then some (ss, rs)
        else some (ss, f :: rs)

/-- The generated `impl` block: the `new` constructor and the fluent
setters, in field order. -/
structure ImplBlock where
  ctor : Ctor
  setters : List Setter
  deriving DecidableEq, Repr

/-- What the derive macro emits: for a struct with named fields, the `impl`
block; for any other shape, an empty token stream — `derive_handler` falls
through to `TokenStream::new()` without emitting a diagnostic. -/
inductive DeriveOutput where
  | implBlock (impl : ImplBlock)
  | emptyOutput
  deriving DecidableEq, Repr

/-- Whether a derive output is a compile-time diagnostic.  `derive_handler`
has no error path, so this is false for both constructors; the definition
makes the error-handling claims statable. -/
def DeriveOutput.isDiagnostic : DeriveOutput → Bool
  | _ => false

/-- `derive_handler`: on a struct with named fields run the loop and emit
the `impl` block (`none` embeds a panic inside setter generation); on any
other input shape return the empty token stream. -/
def derive_handler (shape : StructShape) : Option DeriveOutput :=
  match shape with
  | .named fs =>
    match processFields fs with
    | none => none
    | some (setters, requiredFields) =>
      some (.implBlock { ctor := gen_required_functions requiredFields
                         setters := setters })
  | .notNamed => some .emptyOutput

/-! ## Helper lemmas -/

/-- The fields the spec's §3 says are appended, in the spec's fixed
canonical order: amount, metadata, description, livemode, the timestamp
pair, currency.  Stated from the spec's words, to be compared with the
source pipeline `expandFields`. -/
def canonicalFields (a : PayrexAttrs) : List Field :=
  (if a.amount then [amountField] else []) ++
  (if a.metadata then [metadataField] else []) ++
  (match a.description with
   | some key => [descriptionField key]
   | none => []) ++
  (if a.livemode then [livemodeField] else []) ++
  (if a.timestamp then [createdAtField, updatedAtField] else []) ++
  (if a.currency then [currencyField] else [])

theorem if_append (c : Prop) [Decidable c] (l m : List Field) :
    (if c then l ++ m else l) = l ++ (if c then m else []) := by
  split <;> simp

theorem add_description_eq (a : PayrexAttrs) (fs : List Field) :
    add_description a fs = fs ++ (match a.description with
      | some key => [descriptionField key]
      | none => []) := by
  unfold add_description
  cases a.description <;> simp

/-- The source pipeline appends exactly the canonical fields, in the
canonical order, after the original fields. -/
theorem expandFields_eq (a : PayrexAttrs) (fs : List Field) :
    expandFields a fs = fs ++ canonicalFields a := by
  obtain ⟨t, m, am, lv, d, c, o⟩ := a
  cases t <;> cases m <;> cases am <;> cases lv <;> cases d <;> cases c <;>
    simp [expandFields, add_amount, add_metadata, add_livemode, add_timestamp,
      add_currency, add_description, canonicalFields]

theorem applySwitch_comm (a : PayrexAttrs) (x y : SwitchItem)
    (hne : x.name ≠ y.name) :
    applySwitch (applySwitch a x) y = applySwitch (applySwitch a y) x := by
  cases x <;> cases y <;> first
    | exact absurd rfl hne
    | rfl

theorem foldl_applySwitch_perm :
    ∀ {l1 l2 : List SwitchItem}, l1.Perm l2 →
      (l1.map SwitchItem.name).Nodup →
      ∀ a : PayrexAttrs, l1.foldl applySwitch a = l2.foldl applySwitch a := by
  intro l1 l2 hperm
  induction hperm with
  | nil =>
    intro _ _
    rfl
  | cons x p ih =>
    intro hnd a
    simp only [List.foldl_cons]
    exact ih (List.nodup_cons.mp (by simpa using hnd)).2 (applySwitch a x)
  | swap x y l =>
    intro hnd a
    simp only [List.map_cons, List.nodup_cons, List.mem_cons] at hnd
    simp only [List.foldl_cons]
    rw [applySwitch_comm a y x (fun h => hnd.1 (Or.inl h))]
  | trans p1 p2 ih1 ih2 =>
    intro hnd a
    rw [ih1 hnd a, ih2 (((p1.map SwitchItem.name).nodup_iff).mp hnd) a]

/-- `darling`'s fold over the option list is insensitive to the order the
switches are written, provided the keys are distinct (duplicates are a
`darling` error upstream). -/
theorem parseAttrs_perm {l1 l2 : List SwitchItem} (hperm : l1.Perm l2)
    (hnd : (l1.map SwitchItem.name).Nodup) :
    parseAttrs l1 = parseAttrs l2 :=
  foldl_applySwitch_perm hperm hnd {}

/-- Characterization of a successful `derive_handler` loop: the required
list is the declaration-order sublist of fields with no effective
description and a type other than `ListParams`, and the setters correspond
pointwise to the declaration-order sublist of fields with an effective
description. -/
theorem processFields_spec :
    ∀ (fs : List Field) (ss : List Setter) (rs : List Field),
      processFields fs = some (ss, rs) →
      rs = fs.filter
        (fun f => (effectiveDescription f).isNone && !is_type f.ty "ListParams") ∧
      List.Forall₂
        (fun f s => gen_optional_function f (effectiveDescription f) = some s)
        (fs.filter (fun f => (effectiveDescription f).isSome)) ss := by
  intro fs
  induction fs with
  | nil =>
    intro ss rs h
    simp only [processFields, Option.some.injEq, Prod.mk.injEq] at h
    obtain ⟨h1, h2⟩ := h
    subst h1
    subst h2
    simp
  | cons f fs ih =>
    intro ss rs h
    rw [processFields] at h
    split at h
    · rename_i d hd
      split at h
      · exact Option.noConfusion h
      · rename_i s hs
        split at h
        · exact Option.noConfusion h
        · rename_i ss' rs' hr
          simp only [Option.some.injEq, Prod.mk.injEq] at h
          obtain ⟨hss, hrs⟩ := h
          subst hss
          subst hrs
          obtain ⟨h1, h2⟩ := ih ss' rs' hr
          refine ⟨by simp [List.filter_cons, hd, h1], ?_⟩
          simp only [List.filter_cons, hd, Option.isSome_some]
          exact List.Forall₂.cons (by rw [hd]; exact hs) h2
    · rename_i hd
      split at h
      · exact Option.noConfusion h
      · rename_i ss' rs' hr
        obtain ⟨h1, h2⟩ := ih ss' rs' hr
        split at h
        · rename_i hl
          simp only [Option.some.injEq, Prod.mk.injEq] at h
          obtain ⟨hss, hrs⟩ := h
          subst hss
          subst hrs
          simp [List.filter_cons, hd, hl, h1, h2]
        · rename_i hl
          simp only [Option.some.injEq, Prod.mk.injEq] at h
          obtain ⟨hss, hrs⟩ := h
          subst hss
          subst hrs
          simp [List.filter_cons, hd, Bool.not_eq_true _ ▸ hl, h1, h2]

/-- Setter generation on a field whose type is a proper `Option<inner>`:
the emitted setter, with the string relaxation decided by `is_type_deep`. -/
theorem gen_optional_function_eq_some (f : Field) (d : Option String) (inner : Ty)
    (hi : get_option_inner f.ty = some inner) :
    gen_optional_function f d =
      (if is_type_deep inner "String" then
        some { name := f.name, doc := d, param := .intoParam inner, converts := true }
      else
        some { name := f.name, doc := d, param := .exactParam inner, converts := false }) := by
  rw [gen_optional_function.eq_def, hi]

/-- If some field of the list is setter-routed but its type is not a proper
`Option<T>`, the whole loop panics. -/
theorem processFields_none_of_panic :
    ∀ (fs : List Field) (f : Field), f ∈ fs → (effectiveDescription f).isSome →
      get_option_inner f.ty = none → processFields fs = none := by
  intro fs
  induction fs with
  | nil =>
    intro f hf
    exact absurd hf (by simp)
  | cons g fs ih =>
    intro f hf hdesc hinner
    have hgen : ∀ h : Field, get_option_inner h.ty = none →
        ∀ d, gen_optional_function h d = none := by
      intro h hn d
      rw [gen_optional_function.eq_def, hn]
    rcases List.mem_cons.mp hf with heq | hmem
    · subst heq
      rw [processFields]
      split
      · rename_i d hd
        rw [hgen f hinner (some d)]
      · rename_i hd
        rw [hd] at hdesc
        exact absurd hdesc (by simp)
    · have hrec := ih f hmem hdesc hinner
      rw [processFields]
      split
      · rename_i d hd
        split
        · rfl
        · rw [hrec]
      · rw [hrec]

/-- If every setter-routed field is a proper `Option<T>`, the loop
succeeds: setter generation is total exactly under that precondition. -/
theorem processFields_isSome :
    ∀ fs : List Field,
      (∀ f ∈ fs, (effectiveDescription f).isSome → (get_option_inner f.ty).isSome) →
      (processFields fs).isSome := by
  intro fs
  induction fs with
  | nil =>
    intro _
    simp [processFields]
  | cons f fs ih =>
    intro h
    have hrec := ih (fun g hg => h g (List.mem_cons_of_mem f hg))
    rcases hr : processFields fs with _ | ⟨ss, rs⟩
    · rw [hr] at hrec
      exact absurd hrec (by simp)
    · rw [processFields]
      split
      · rename_i d hd
        have hin : (get_option_inner f.ty).isSome := by
          apply h f (List.mem_cons_self f fs)
          rw [hd]
          rfl
        rcases hi : get_option_inner f.ty with _ | inner
        · rw [hi] at hin
          exact absurd hin (by simp)
        · rw [gen_optional_function_eq_some f (some d) inner hi]
          split
          · rename_i heq
            exfalso
            revert heq
            split <;> simp
          · simp [hr]
      · simp only [hr]
        split <;> simp

/-- From a pointwise `Forall₂` correspondence, every element on the right
arises from a member on the left. -/
theorem forall₂_exists_left {α β : Type} {r : α → β → Prop} :
    ∀ {l1 : List α} {l2 : List β}, List.Forall₂ r l1 l2 →
      ∀ b ∈ l2, ∃ a ∈ l1, r a b := by
  intro l1 l2 h
  induction h with
  | nil => simp
  | cons hr _ ih =>
    intro b hb
    rcases List.mem_cons.mp hb with heq | hmem
    · subst heq
      exact ⟨_, List.mem_cons_self _ _, hr⟩
    · obtain ⟨a, ha, har⟩ := ih b hmem
      exact ⟨a, List.mem_cons_of_mem _ ha, har⟩

/-! ## Concrete example data -/

/-- A `url: String` field with no `#[payrex]` description, as in the
webhook request structs. -/
def urlField : Field :=
  { name := "url", ty := tyName "String", doc := "", serdeSkip := false
    payrexDescription := none }

/-- An `events: Vec<EventType>` field with no `#[payrex]` description. -/
def eventsField : Field :=
  { name := "events", ty := .pathAngleOneTy true "Vec" (tyName "EventType")
    doc := "", serdeSkip := false, payrexDescription := none }

/-- An `email: Option<String>` field with no `#[payrex]` description, as in
the `Customer` response struct. -/
def emailOptField : Field :=
  { name := "email", ty := tyOption (tyName "String"), doc := ""
    serdeSkip := true, payrexDescription := none }

/-- A `list_params: ListParams` pagination field, no description. -/
def listParamsField : Field :=
  { name := "list_params", ty := tyName "ListParams", doc := ""
    serdeSkip := false, payrexDescription := none }

/-- A `currency: Option<Currency>` field on which the author attached a
per-field description of their own. -/
def currencyOptField : Field :=
  { name := "currency", ty := tyOption (tyName "Currency"), doc := ""
    serdeSkip := true, payrexDescription := some "author text" }

/-- A setter-routed field whose type is not `Option`-wrapped: a `note:
String` field carrying a `#[payrex(description = ...)]` attribute. -/
def badSetterField : Field :=
  { name := "note", ty := tyName "String", doc := "", serdeSkip := false
    payrexDescription := some "Sets the note." }

/-- The setter `derive_handler` generates for `currencyOptField`. -/
def currencySetter : Setter :=
  { name := "currency", doc := some "Sets the currency in the query parameters."
    param := .exactParam (tyName "Currency"), converts := false }

/-- The setter `derive_handler` generates for the appended `description`
field. -/
def descriptionSetter : Setter :=
  { name := "description", doc := some "Sets the description in the query parameters."
    param := .intoParam (tyName "String"), converts := true }

/-- The annotation of the webhook scenario: `description = "webhook"`. -/
def webhookAttrs : PayrexAttrs := { description := some "webhook" }

/-- The annotation of the mirror-struct example: `metadata, optional`. -/
def exampleAttrs : PayrexAttrs := { metadata := true, optional := true }

/-- The expansion of a one-field struct under `exampleAttrs`. -/
def exampleExpanded : Expanded :=
  { fields := expandFields exampleAttrs [urlField]
    mirror := some (gen_optional_fields (expandFields exampleAttrs [urlField])) }

/-! ## Claims -/

/-- C1, as stated, is false on the code: the claim routes every
`Option`-typed field to a setter, but `derive_handler` only consults the
(effective) description and the `ListParams` check.  Concretely, an
`email: Option<String>` field with no description metadata is `Option`-typed,
yet it becomes the one positional constructor parameter and no setter is
generated for it. -/
theorem constructor_partition_claim_false :
    emailOptField.payrexDescription = none ∧
    is_type emailOptField.ty "Option" = true ∧
    derive_handler (.named [emailOptField]) =
      some (.implBlock
        { ctor := .withArgs
            [{ name := "email", param := .exactParam (tyOption (tyName "String"))
               converts := false }]
          setters := [] }) := by
  refine ⟨rfl, rfl, ?_⟩
  rfl

/-- C1 (amended): for every field of the expanded struct, the field becomes
a positional constructor parameter (in declaration order) if and only if
its effective description is absent — where the effective description is
the field's description metadata, except that an `Option`-typed field named
`metadata`, `description`, `currency` or `amount` always receives the
canned table entry — and its type is not the pagination-helper type
(`ListParams`); every field with an effective description is exposed via a
generated setter; a `ListParams` field without a description is excluded
from both. -/
theorem constructor_setter_partition (fs : List Field) (ss : List Setter)
    (rs : List Field) (h : processFields fs = some (ss, rs)) :
    rs = fs.filter
      (fun f => (effectiveDescription f).isNone && !is_type f.ty "ListParams") ∧
    List.Forall₂
      (fun f s => gen_optional_function f (effectiveDescription f) = some s)
      (fs.filter (fun f => (effectiveDescription f).isSome)) ss ∧
    derive_handler (.named fs) =
      some (.implBlock { ctor := gen_required_functions rs, setters := ss }) := by
  obtain ⟨h1, h2⟩ := processFields_spec fs ss rs h
  refine ⟨h1, h2, ?_⟩
  rw [derive_handler, h]

/-- Witness for the amended C1 at a concrete two-field struct. -/
theorem constructor_setter_partition_witness :
    [urlField] = [urlField, currencyOptField].filter
      (fun f => (effectiveDescription f).isNone && !is_type f.ty "ListParams") ∧
    List.Forall₂
      (fun f s => gen_optional_function f (effectiveDescription f) = some s)
      ([urlField, currencyOptField].filter
        (fun f => (effectiveDescription f).isSome)) [currencySetter] ∧
    derive_handler (.named [urlField, currencyOptField]) =
      some (.implBlock { ctor := gen_required_functions [urlField]
                         setters := [currencySetter] }) :=
  constructor_setter_partition [urlField, currencyOptField] [currencySetter]
    [urlField] (by decide)

/-- C2: for every struct expanded with any combination of switches, the
output is the original fields in order followed by the appended canonical
fields in the fixed order amount, metadata, description, livemode,
created_at/updated_at, currency — and the result does not depend on the
order in which the switches are written in the annotation. -/
theorem canonical_field_ordering (l1 l2 : List SwitchItem) (fs : List Field)
    (hperm : l1.Perm l2) (hnd : (l1.map SwitchItem.name).Nodup) :
    expandFields (parseAttrs l1) fs = fs ++ canonicalFields (parseAttrs l1) ∧
    expandFields (parseAttrs l1) fs = expandFields (parseAttrs l2) fs := by
  refine ⟨expandFields_eq _ fs, ?_⟩
  rw [parseAttrs_perm hperm hnd]

/-- Witness for C2: a three-switch annotation written in two different
orders. -/
theorem canonical_field_ordering_witness :
    expandFields (parseAttrs [SwitchItem.currency true, SwitchItem.timestamp true,
      SwitchItem.metadata true]) [urlField] =
      [urlField] ++ canonicalFields (parseAttrs [SwitchItem.currency true,
        SwitchItem.timestamp true, SwitchItem.metadata true]) ∧
    expandFields (parseAttrs [SwitchItem.currency true, SwitchItem.timestamp true,
      SwitchItem.metadata true]) [urlField] =
      expandFields (parseAttrs [SwitchItem.metadata true, SwitchItem.currency true,
        SwitchItem.timestamp true]) [urlField] :=
  canonical_field_ordering
    [SwitchItem.currency true, SwitchItem.timestamp true, SwitchItem.metadata true]
    [SwitchItem.metadata true, SwitchItem.currency true, SwitchItem.timestamp true]
    [urlField] (by decide) (by decide)

/-- C3: when the `optional` switch is set, the mirror struct has, for each
field of the already-expanded list and in the same positions, a field of
the same name whose type is unchanged when already `Option`-wrapped and is
wrapped exactly once in `Option` otherwise, and every mirror field carries
the `skip_serializing_if` annotation. -/
theorem mirror_struct_transformation (a : PayrexAttrs) (fs : List Field)
    (ex : Expanded) (hopt : a.optional = true)
    (hok : payrex_attr a (.named fs) = .ok ex) :
    ∃ m, ex.mirror = some m ∧ m.length = ex.fields.length ∧
      ∀ i : Nat, ∀ hi : i < m.length, ∀ hf : i < ex.fields.length,
        (m.get ⟨i, hi⟩).name = (ex.fields.get ⟨i, hf⟩).name ∧
        (m.get ⟨i, hi⟩).serdeSkip = true ∧
        (is_option (ex.fields.get ⟨i, hf⟩).ty = true →
          (m.get ⟨i, hi⟩).ty = (ex.fields.get ⟨i, hf⟩).ty) ∧
        (is_option (ex.fields.get ⟨i, hf⟩).ty = false →
          (m.get ⟨i, hi⟩).ty = tyOption (ex.fields.get ⟨i, hf⟩).ty) := by
  rw [payrex_attr] at hok
  simp only [Except.ok.injEq] at hok
  subst hok
  refine ⟨gen_optional_fields (expandFields a fs), by simp [hopt], ?_, ?_⟩
  · simp [gen_optional_fields]
  · intro i hi hf
    simp only [gen_optional_fields, List.get_eq_getElem, List.getElem_map]
    rcases hcase : is_option (expandFields a fs)[i].ty with _ | _ <;>
      simp [mirrorField, hcase]

/-- Witness for C3 at a concrete expansion with one original field. -/
theorem mirror_struct_transformation_witness :
    ∃ m, exampleExpanded.mirror = some m ∧
      m.length = exampleExpanded.fields.length ∧
      ∀ i : Nat, ∀ hi : i < m.length, ∀ hf : i < exampleExpanded.fields.length,
        (m.get ⟨i, hi⟩).name = (exampleExpanded.fields.get ⟨i, hf⟩).name ∧
        (m.get ⟨i, hi⟩).serdeSkip = true ∧
        (is_option (exampleExpanded.fields.get ⟨i, hf⟩).ty = true →
          (m.get ⟨i, hi⟩).ty = (exampleExpanded.fields.get ⟨i, hf⟩).ty) ∧
        (is_option (exampleExpanded.fields.get ⟨i, hf⟩).ty = false →
          (m.get ⟨i, hi⟩).ty = tyOption (exampleExpanded.fields.get ⟨i, hf⟩).ty) :=
  mirror_struct_transformation exampleAttrs [urlField] exampleExpanded rfl rfl

/-- C4: for every constructor-routed field whose declared type is a string
type, the parameter is `impl Into` and the body converts; for every
setter-routed field this is decided on the `Option`-unwrapped inner type;
for every other type the parameter is the exact type and the value is
stored untransformed. -/
theorem string_relaxation (fs : List Field) (ss : List Setter) (rs : List Field)
    (h : processFields fs = some (ss, rs)) :
    (∀ args, gen_required_functions rs = Ctor.withArgs args →
      ∀ i : Nat, ∀ ha : i < args.length, ∀ hr : i < rs.length,
        (args.get ⟨i, ha⟩).name = (rs.get ⟨i, hr⟩).name ∧
        (is_type (rs.get ⟨i, hr⟩).ty "String" = true →
          (args.get ⟨i, ha⟩).param = .intoParam (rs.get ⟨i, hr⟩).ty ∧
          (args.get ⟨i, ha⟩).converts = true) ∧
        (is_type (rs.get ⟨i, hr⟩).ty "String" = false →
          (args.get ⟨i, ha⟩).param = .exactParam (rs.get ⟨i, hr⟩).ty ∧
          (args.get ⟨i, ha⟩).converts = false)) ∧
    (∀ s ∈ ss, ∃ f ∈ fs, ∃ inner, get_option_inner f.ty = some inner ∧
      s.name = f.name ∧
      (is_type_deep inner "String" = true →
        s.param = .intoParam inner ∧ s.converts = true) ∧
      (is_type_deep inner "String" = false →
        s.param = .exactParam inner ∧ s.converts = false)) := by
  obtain ⟨-, h2⟩ := processFields_spec fs ss rs h
  constructor
  · intro args hargs i ha hr
    rw [gen_required_functions] at hargs
    split at hargs
    · exact Ctor.noConfusion hargs
    · simp only [Ctor.withArgs.injEq] at hargs
      subst hargs
      simp only [List.get_eq_getElem, List.getElem_map]
      rcases hstr : is_type rs[i].ty "String" with _ | _ <;>
        simp [mkCtorArg, hstr]
  · intro s hs
    obtain ⟨f, hfmem, hfgen⟩ := forall₂_exists_left h2 s hs
    refine ⟨f, List.mem_of_mem_filter hfmem, ?_⟩
    rcases hi : get_option_inner f.ty with _ | inner
    · rw [gen_optional_function.eq_def, hi] at hfgen
      exact Option.noConfusion hfgen
    · refine ⟨inner, rfl, ?_⟩
      rw [gen_optional_function_eq_some f _ inner hi] at hfgen
      by_cases hstr : is_type_deep inner "String" = true
      · rw [if_pos hstr, Option.some.injEq] at hfgen
        subst hfgen
        simp [hstr]
      · rw [if_neg hstr, Option.some.injEq] at hfgen
        subst hfgen
        rw [Bool.not_eq_true] at hstr
        simp [hstr]

/-- Witness for C4: a struct with a string constructor field, a non-string
constructor field, a string-inner setter and a non-string-inner setter. -/
theorem string_relaxation_witness :
    ((∀ args, gen_required_functions [urlField, eventsField] = Ctor.withArgs args →
      ∀ i : Nat, ∀ ha : i < args.length, ∀ hr : i < [urlField, eventsField].length,
        (args.get ⟨i, ha⟩).name = ([urlField, eventsField].get ⟨i, hr⟩).name ∧
        (is_type ([urlField, eventsField].get ⟨i, hr⟩).ty "String" = true →
          (args.get ⟨i, ha⟩).param = .intoParam ([urlField, eventsField].get ⟨i, hr⟩).ty ∧
          (args.get ⟨i, ha⟩).converts = true) ∧
        (is_type ([urlField, eventsField].get ⟨i, hr⟩).ty "String" = false →
          (args.get ⟨i, ha⟩).param = .exactParam ([urlField, eventsField].get ⟨i, hr⟩).ty ∧
          (args.get ⟨i, ha⟩).converts = false)) ∧
    (∀ s ∈ [currencySetter, descriptionSetter],
      ∃ f ∈ [urlField, eventsField, currencyOptField, descriptionField "webhook"],
        ∃ inner, get_option_inner f.ty = some inner ∧ s.name = f.name ∧
        (is_type_deep inner "String" = true →
          s.param = .intoParam inner ∧ s.converts = true) ∧
        (is_type_deep inner "String" = false →
          s.param = .exactParam inner ∧ s.converts = false))) :=
  string_relaxation [urlField, eventsField, currencyOptField, descriptionField "webhook"]
    [currencySetter, descriptionSetter]
    [urlField, eventsField] (by decide)

/-- The loop classifies a field as a constructor (required) field exactly
when it has no effective description and its type is not `ListParams`. -/
theorem route_required_iff (f : Field) :
    route f = Route.required ↔
      ((effectiveDescription f).isNone && !is_type f.ty "ListParams") = true := by
  unfold route
  rcases hd : effectiveDescription f with _ | d <;>
    by_cases hl : is_type f.ty "ListParams" = true <;>
      simp [hd, hl]

/-- C5: when every field is setter-routed or dropped (so the constructor
parameter set is empty), the generated constructor is the zero-argument
`new()` returning `Self::default()`. -/
theorem empty_required_set_default_ctor (fs : List Field)
    (hall : ∀ f ∈ fs, route f ≠ Route.required)
    (out : DeriveOutput) (h : derive_handler (.named fs) = some out) :
    ∃ ss, out = .implBlock { ctor := Ctor.zeroArg, setters := ss } := by
  rw [derive_handler] at h
  split at h
  · exact Option.noConfusion h
  · rename_i ss rs hp
    obtain ⟨h1, -⟩ := processFields_spec fs ss rs hp
    have hempty : rs = [] := by
      rw [h1]
      rw [List.filter_eq_nil_iff]
      intro f hf
      intro hcontra
      exact hall f hf ((route_required_iff f).mpr hcontra)
    refine ⟨ss, ?_⟩
    have hout : out = .implBlock { ctor := gen_required_functions rs, setters := ss } := by
      simp only [Option.some.injEq] at h
      exact h.symm
    rw [hout, hempty]
    rfl

/-- Witness for C5: a struct whose only fields are a pagination field and a
setter-routed field. -/
theorem empty_required_set_default_ctor_witness :
    ∃ ss, DeriveOutput.implBlock { ctor := Ctor.zeroArg, setters := [currencySetter] } =
      .implBlock { ctor := Ctor.zeroArg, setters := ss } :=
  empty_required_set_default_ctor [listParamsField, currencyOptField] (by decide)
    (.implBlock { ctor := Ctor.zeroArg, setters := [currencySetter] }) (by decide)

/-- C6: an unrecognized `description` key is not an error — expansion still
succeeds and appends the `description: Option<String>` field, whose
documentation string is empty. -/
theorem unrecognized_description_key (a : PayrexAttrs) (fs : List Field)
    (key : String) (hk : a.description = some key)
    (hrec : key ∉ recognizedDescriptionKeys) :
    ∃ ex, payrex_attr a (.named fs) = Except.ok ex ∧
      ({ name := "description", ty := tyOption (tyName "String"), doc := ""
         serdeSkip := true, payrexDescription := none } : Field) ∈ ex.fields := by
  have htmpl : descTemplate key = "" := by
    simp only [recognizedDescriptionKeys, List.mem_cons, List.not_mem_nil, or_false,
      not_or] at hrec
    obtain ⟨h1, h2, h3, h4, h5, h6, h7⟩ := hrec
    simp [descTemplate, h1, h2, h3, h4, h5, h6, h7]
  have hfield : descriptionField key =
      { name := "description", ty := tyOption (tyName "String"), doc := ""
        serdeSkip := true, payrexDescription := none } := by
    simp [descriptionField, htmpl]
  refine ⟨_, rfl, ?_⟩
  rw [← hfield]
  show descriptionField key ∈ expandFields a fs
  rw [expandFields_eq]
  simp [canonicalFields, hk]

/-- Witness for C6 at the key `"typo"`. -/
theorem unrecognized_description_key_witness :
    ∃ ex, payrex_attr { description := some "typo" } (.named [urlField]) =
        Except.ok ex ∧
      ({ name := "description", ty := tyOption (tyName "String"), doc := ""
         serdeSkip := true, payrexDescription := none } : Field) ∈ ex.fields :=
  unrecognized_description_key { description := some "typo" } [urlField] "typo"
    rfl (by decide)

/-- C7, as stated, is false on the code: the claim says both synthesizer
stages reject a non-named-fields input with a compile-time diagnostic, but
`derive_handler` falls through to an empty `TokenStream` and emits no
diagnostic at all. -/
theorem malformed_shape_claim_false :
    derive_handler .notNamed = some .emptyOutput ∧
    DeriveOutput.isDiagnostic .emptyOutput = false :=
  ⟨rfl, rfl⟩

/-- C7 (amended): for every input that is not a struct with named fields,
the attribute stage rejects it with a compile-time diagnostic before field
synthesis runs, while the derive stage silently produces an empty output —
no `impl` block and no diagnostic. -/
theorem malformed_shape_handling (a : PayrexAttrs) :
    payrex_attr a .notNamed =
      Except.error "#[payrex] only supports structs with named fields" ∧
    derive_handler .notNamed = some .emptyOutput ∧
    DeriveOutput.isDiagnostic .emptyOutput = false ∧
    ∀ impl, derive_handler .notNamed ≠ some (.implBlock impl) := by
  refine ⟨rfl, rfl, rfl, ?_⟩
  intro impl h
  simp [derive_handler] at h

/-- Witness for the amended C7 at the default (all-absent) annotation. -/
theorem malformed_shape_handling_witness :
    payrex_attr {} .notNamed =
      Except.error "#[payrex] only supports structs with named fields" ∧
    derive_handler .notNamed = some .emptyOutput ∧
    DeriveOutput.isDiagnostic .emptyOutput = false ∧
    ∀ impl, derive_handler .notNamed ≠ some (.implBlock impl) :=
  malformed_shape_handling {}

/-- C8: the concrete webhook scenario.  Expanding `{url: String, events:
Vec<EventType>}` with `description = "webhook"` appends a `description:
Option<String>` field documented with the webhook template, and deriving on
the expanded struct yields the two-argument constructor `new(url, events)`
(url string-relaxed) and exactly one setter, `description`, whose parameter
is string-relaxed. -/
theorem webhook_scenario :
    payrex_attr webhookAttrs (.named [urlField, eventsField]) =
      Except.ok { fields := [urlField, eventsField, descriptionField "webhook"]
                  mirror := none } ∧
    (descriptionField "webhook").name = "description" ∧
    (descriptionField "webhook").ty = tyOption (tyName "String") ∧
    (descriptionField "webhook").doc = descTemplate "webhook" ∧
    (descriptionField "webhook").doc =
      "An arbitrary string attached to the Webhook. You can use this to give more information about the Webhook resource." ∧
    derive_handler (.named [urlField, eventsField, descriptionField "webhook"]) =
      some (.implBlock
        { ctor := .withArgs
            [{ name := "url", param := .intoParam (tyName "String"), converts := true },
             { name := "events"
               param := .exactParam (.pathAngleOneTy true "Vec" (tyName "EventType"))
               converts := false }]
          setters := [descriptionSetter] }) :=
  ⟨rfl, rfl, rfl, rfl, rfl, rfl⟩

/-- C9: a field named `metadata`, `description`, `currency` or `amount`
whose type is `Option`-wrapped is always routed to setter generation, and
its setter documentation is the canned `MAP_DESCRIPTION` entry — whatever
description the author attached via the per-field annotation is
overwritten. -/
theorem canonical_name_setter_override (f : Field)
    (hname : f.name = "metadata" ∨ f.name = "description" ∨ f.name = "currency"
      ∨ f.name = "amount")
    (hopt : is_type f.ty "Option" = true) :
    (∀ d : Option String,
      effectiveDescription { f with payrexDescription := d } =
        MAP_DESCRIPTION f.name) ∧
    (MAP_DESCRIPTION f.name).isSome = true ∧
    route f = Route.setter ∧
    (∀ s : Setter, gen_optional_function f (effectiveDescription f) = some s →
      s.doc = MAP_DESCRIPTION f.name) := by
  have h1 : ∀ d : Option String,
      effectiveDescription { f with payrexDescription := d } =
        MAP_DESCRIPTION f.name := by
    intro d
    unfold effectiveDescription
    rw [if_pos ⟨hname, hopt⟩]
  have h2 : (MAP_DESCRIPTION f.name).isSome = true := by
    rcases hname with h | h | h | h <;> rw [h] <;> rfl
  have heff : effectiveDescription f = MAP_DESCRIPTION f.name :=
    h1 f.payrexDescription
  have h3 : route f = Route.setter := by
    unfold route
    rw [heff, if_pos h2]
  refine ⟨h1, h2, h3, ?_⟩
  intro s hs
  rcases hi : get_option_inner f.ty with _ | inner
  · rw [gen_optional_function.eq_def, hi] at hs
    exact Option.noConfusion hs
  · rw [gen_optional_function_eq_some f _ inner hi] at hs
    split at hs <;> simp only [Option.some.injEq] at hs <;> subst hs <;> exact heff

/-- Witness for C9: a `currency: Option<Currency>` field on which the
author attached their own description. -/
theorem canonical_name_setter_override_witness :
    (∀ d : Option String,
      effectiveDescription { currencyOptField with payrexDescription := d } =
        MAP_DESCRIPTION currencyOptField.name) ∧
    (MAP_DESCRIPTION currencyOptField.name).isSome = true ∧
    route currencyOptField = Route.setter ∧
    (∀ s : Setter,
      gen_optional_function currencyOptField
        (effectiveDescription currencyOptField) = some s →
      s.doc = MAP_DESCRIPTION currencyOptField.name) :=
  canonical_name_setter_override currencyOptField (Or.inr (Or.inr (Or.inl rfl))) rfl

/-- C10: setter generation is partial.  For a setter-routed field whose
type is not an `Option` wrapper with exactly one type argument, the inner
extraction returns nothing and the unconditional unwrap panics (embedded as
`none`), killing the whole derive; generation is total exactly under the
precondition that every setter-routed field is proper-`Option`-typed. -/
theorem setter_generation_partial (f : Field) (fs : List Field)
    (hmem : f ∈ fs) (hdesc : (effectiveDescription f).isSome = true) :
    (get_option_inner f.ty = none →
      (∀ d : Option String, gen_optional_function f d = none) ∧
      processFields fs = none ∧
      derive_handler (.named fs) = none) ∧
    ((∀ g ∈ fs, (effectiveDescription g).isSome = true →
        (get_option_inner g.ty).isSome = true) →
      (processFields fs).isSome = true) := by
  constructor
  · intro hnone
    have hgen : ∀ d : Option String, gen_optional_function f d = none := by
      intro d
      rw [gen_optional_function.eq_def, hnone]
    have hpf := processFields_none_of_panic fs f hmem hdesc hnone
    refine ⟨hgen, hpf, ?_⟩
    rw [derive_handler, hpf]
  · exact processFields_isSome fs

/-- Witness for C10: a described `note: String` field panics the derive of
its struct. -/
theorem setter_generation_partial_witness :
    (get_option_inner badSetterField.ty = none →
      (∀ d : Option String, gen_optional_function badSetterField d = none) ∧
      processFields [badSetterField, urlField] = none ∧
      derive_handler (.named [badSetterField, urlField]) = none) ∧
    ((∀ g ∈ [badSetterField, urlField], (effectiveDescription g).isSome = true →
        (get_option_inner g.ty).isSome = true) →
      (processFields [badSetterField, urlField]).isSome = true) :=
  setter_generation_partial badSetterField [badSetterField, urlField]
    (by decide) (by decide)

end Payrex
